import Mathlib

/-
Verification of the 2captcha-python client SDK core
(twocaptcha/solver.py and twocaptcha/api.py).

Shallow embedding conventions:
  - Python dicts are association lists with unique keys, insertion-ordered,
    like CPython dicts (type Dict below).
  - Python values appearing in parameter mappings are modelled by PyVal
    (strings, ints, None, and nested dicts such as the proxy descriptor).
  - Raising is modelled with Except PyExc; the Python class hierarchy of the
    exception classes declared in solver.py and api.py is modelled by PyClass
    with an explicit subclass relation, because solver.py and api.py declare
    distinct classes that share the names NetworkException and ApiException.
  - HTTP traffic is an external input: each request site takes an oracle
    describing the response of the network (HttpOutcome / FetchOutcome).
  - The clock in wait_result is idealized: poll attempts are instantaneous
    and time.sleep(i) advances the clock by exactly i.
-/

deriving instance DecidableEq for Except

namespace TC

/-- Python values stored in the parameter mappings the solver manipulates:
strings, integers, None, and nested dicts.  The only nested dicts this code
ever reads are string-valued (the proxy descriptor with its uri and type
fields, and the files map from field names to paths), so the dict payload is
modelled as a string-valued association list. -/
inductive PyVal where
  | str (s : String)
  | int (n : Int)
  | dict (d : List (String × String))
  | none
deriving DecidableEq, Repr

/-- A Python dict with string keys, as an insertion-ordered association list
with unique keys (the invariant CPython dicts maintain). -/
abbrev Dict := List (String × PyVal)

/-- Lookup in an association list, first match (keys are unique). -/
def alookup {α : Type} (d : List (String × α)) (k : String) : Option α :=
  match d with
  | [] => Option.none
  | (k2, v) :: tl => if k2 = k then Option.some v else alookup tl k

/-- CPython dict assignment d[k] = v: overwrite in place if the key exists
(keeping its position), otherwise append at the end. -/
def dset (d : Dict) (k : String) (v : PyVal) : Dict :=
  match d with
  | [] => [(k, v)]
  | (k2, v2) :: tl => if k2 = k then (k2, v) :: tl else (k2, v2) :: dset tl k v

/-- CPython dict pop of key k (d.pop(k, default) discards the entry). -/
def dpop (d : Dict) (k : String) : Dict :=
  d.filter (fun kv => kv.1 ≠ k)

/-- CPython d.update(e): assign every entry of e into d, in the order of e. -/
def dupdate (d e : Dict) : Dict :=
  e.foldl (fun acc kv => dset acc kv.1 kv.2) d

/-- The keys of a mapping, in order. -/
def dkeys (d : Dict) : List String := d.map Prod.fst

/-- Well-formedness of a modelled dict: keys are pairwise distinct,
which CPython dicts guarantee. -/
def keysNodup (d : Dict) : Prop := (dkeys d).Nodup

/-- Python truthiness of the modelled values (nonempty string, nonzero int,
nonempty dict; None is falsy). -/
def pyTruthy : PyVal → Bool
  | PyVal.str s => !s.isEmpty
  | PyVal.int n => n != 0
  | PyVal.dict d => !d.isEmpty
  | PyVal.none => false

/-- Lift an optional string configuration field to a PyVal (None when absent). -/
def pyOfOptionStr : Option String → PyVal
  | Option.some s => PyVal.str s
  | Option.none => PyVal.none

/-- The Python exception classes involved: the five classes declared in
solver.py (SolverExceptions and its four subclasses), the two classes
declared in api.py (subclasses of Exception only), and the builtin
classes NameError, TypeError and OSError. -/
inductive PyClass where
  | baseException
  | exception
  | solverExceptions
  | validationException
  | solverNetworkException
  | solverApiException
  | timeoutException
  | apiNetworkException
  | apiApiException
  | nameError
  | typeError
  | osError
deriving DecidableEq, Repr

/-- The proper ancestors of each class, read off the class declarations:
solver.py classes inherit from SolverExceptions which inherits from
Exception; api.py classes inherit directly from Exception, and so do the
builtins (transitively via their real bases, collapsed here). -/
def ancestors : PyClass → List PyClass
  | PyClass.baseException => []
  | PyClass.exception => [PyClass.baseException]
  | PyClass.solverExceptions => [PyClass.exception, PyClass.baseException]
  | PyClass.validationException =>
      [PyClass.solverExceptions, PyClass.exception, PyClass.baseException]
  | PyClass.solverNetworkException =>
      [PyClass.solverExceptions, PyClass.exception, PyClass.baseException]
  | PyClass.solverApiException =>
      [PyClass.solverExceptions, PyClass.exception, PyClass.baseException]
  | PyClass.timeoutException =>
      [PyClass.solverExceptions, PyClass.exception, PyClass.baseException]
  | PyClass.apiNetworkException => [PyClass.exception, PyClass.baseException]
  | PyClass.apiApiException => [PyClass.exception, PyClass.baseException]
  | PyClass.nameError => [PyClass.exception, PyClass.baseException]
  | PyClass.typeError => [PyClass.exception, PyClass.baseException]
  | PyClass.osError => [PyClass.exception, PyClass.baseException]

/-- Python issubclass: reflexive, or an ancestor per the declarations. -/
def isSubclass (c d : PyClass) : Bool :=
  c = d || (ancestors c).contains d

/-- Exception values the modelled code can raise.  The timeout exception
carries the timeout value interpolated into its message. -/
inductive PyExc where
  | validation (msg : String)
  | solverNetwork
  | solverApi (msg : String)
  | timeoutExc (timeout : ℚ)
  | apiNetwork (msg : String)
  | apiApi (msg : String)
  | nameError (msg : String)
  | typeError (msg : String)
  | osError (msg : String)
deriving DecidableEq, Repr

/-- The class of each exception value. -/
def PyExc.cls : PyExc → PyClass
  | PyExc.validation _ => PyClass.validationException
  | PyExc.solverNetwork => PyClass.solverNetworkException
  | PyExc.solverApi _ => PyClass.solverApiException
  | PyExc.timeoutExc _ => PyClass.timeoutException
  | PyExc.apiNetwork _ => PyClass.apiNetworkException
  | PyExc.apiApi _ => PyClass.apiApiException
  | PyExc.nameError _ => PyClass.nameError
  | PyExc.typeError _ => PyClass.typeError
  | PyExc.osError _ => PyClass.osError

/-- A Python except clause naming class c handles exception e exactly when
the class of e is a subclass of c. -/
def caughtBy (e : PyExc) (c : PyClass) : Bool :=
  isSubclass e.cls c

/-- Outcome of one HTTP request made with the requests library: either a
requests.RequestException (connection refused, DNS failure, timeout), or a
response with a status code and a body text. -/
inductive HttpOutcome where
  | reqError (msg : String)
  | response (status : Nat) (body : String)
deriving DecidableEq, Repr

/-- Outcome of the auxiliary requests.get used to download an image: a
RequestException, or a response with a status code and raw content bytes. -/
inductive FetchOutcome where
  | exc (msg : String)
  | resp (status : Nat) (content : List Nat)
deriving DecidableEq, Repr

/-- Prefix test on character lists (structural, so that concrete instances
reduce inside the kernel). -/
def listIsPref : List Char → List Char → Bool
  | [], _ => true
  | _ :: _, [] => false
  | a :: as, b :: bs => a = b && listIsPref as bs

/-- Substring occurrence test on character lists. -/
def hasSubstr (needle : List Char) : List Char → Bool
  | [] => needle.isEmpty
  | c :: t => listIsPref needle (c :: t) || hasSubstr needle t

/-- The substring test the transport applies to response bodies
(the Python expression: ERROR in resp). -/
def containsERROR (s : String) : Bool :=
  hasSubstr "ERROR".toList s.toList

/-- The test of the OK marker at the start of a response body
(the Python expression: response.startswith with the OK marker). -/
def startsWithOK (s : String) : Bool :=
  listIsPref "OK|".toList s.toList

/-- The handle or answer after the three marker characters
(the Python slice response from index 3). -/
def afterMarker (s : String) : String :=
  String.mk (s.toList.drop 3)

/-- Classification shared by both transport entry points of api.py: a
RequestException becomes api.NetworkException, a non-200 status becomes
api.NetworkException, a body containing ERROR becomes api.ApiException,
otherwise the body text is returned. -/
def classifyResponse (o : HttpOutcome) : Except PyExc String :=
  match o with
  | HttpOutcome.reqError m => Except.error (PyExc.apiNetwork m)
  | HttpOutcome.response st body =>
    if st ≠ 200 then
      Except.error (PyExc.apiNetwork ("bad response: " ++ toString st))
    else if containsERROR body then Except.error (PyExc.apiApi body)
    else Except.ok body

/-- The local paths ApiClient.in_ opens before posting: the values of the
files mapping when it is nonempty, otherwise the file entry of the
parameters if any. -/
def in_paths (files kwargs : Dict) : List String :=
  if !files.isEmpty then
    files.filterMap (fun kv =>
      match kv.2 with
      | PyVal.str p => Option.some p
      | _ => Option.none)
  else
    match alookup kwargs "file" with
    | Option.some (PyVal.str p) => [p]
    | _ => []

/-- ApiClient.in_ from api.py: opens the file payloads (a missing path makes
the builtin open raise OSError, which nothing in api.py catches), then
classifies the POST outcome.  The oracle fe tells which local paths exist;
o is the network outcome. -/
def in_ (fe : String → Bool) (files : Dict) (kwargs : Dict) (o : HttpOutcome) :
    Except PyExc String :=
  if (in_paths files kwargs).any (fun p => !fe p) then
    Except.error (PyExc.osError "No such file or directory")
  else classifyResponse o

/-- ApiClient.res from api.py: classifies the GET outcome exactly like in_
does for POST: RequestException or non-200 status give api.NetworkException,
a body containing ERROR gives api.ApiException, otherwise the body text. -/
def res (o : HttpOutcome) : Except PyExc String :=
  classifyResponse o

/-- Characters of the standard base64 alphabet (letters, digits, plus,
slash), as tested by the regex character class in _is_base64_like. -/
def isB64Char (c : Char) : Bool :=
  c.isAlpha || c.isDigit || c = '+' || c = '/'

/-- Drop a single trailing newline, because a dollar anchor in a Python
regex also matches just before a final newline. -/
def stripNl (l : List Char) : List Char :=
  match l.getLast? with
  | Option.some c => if c = '\n' then l.dropLast else l
  | Option.none => l

/-- The shape test of the regex in _is_base64_like: base64-alphabet
characters followed by at most two padding signs (anchored at both ends,
modulo the final-newline tolerance of the dollar anchor). -/
def b64Shape (s : String) : Bool :=
  let l := stripNl s.toList
  let dat := l.takeWhile isB64Char
  let rest := l.drop dat.length
  rest.all (fun c => c = '=') && rest.length ≤ 2

/-- Acceptance of CPython base64.b64decode (binascii.a2b_base64 in
non-strict mode) on strings that already match the shape regex: with d
data characters and p trailing padding signs, decoding succeeds exactly
when d is a multiple of 4 (surplus padding is tolerated), or d is 2 mod 4
with both padding signs present, or d is 3 mod 4 with at least one.
Strings with d congruent 1 mod 4, or with insufficient padding, raise
binascii.Error.  (Table verified against CPython.) -/
def b64decodeOk (s : String) : Bool :=
  let l := stripNl s.toList
  let d := (l.takeWhile isB64Char).length
  let p := l.length - d
  d % 4 == 0 || (d % 4 == 2 && p == 2) || (d % 4 == 3 && decide (1 ≤ p))

/-- TwoCaptcha._is_base64_like for string input: nonempty, at least 20
characters, matching the shape regex, the strict length check only under
strict_check (both call sites pass the default False), and finally a
successful base64.b64decode; a binascii.Error makes it return False. -/
def is_base64_like (s : String) (strict_check : Bool) : Bool :=
  if s.toList.isEmpty then false
  else if s.length < 20 then false
  else if !b64Shape s then false
  else if s.length % 4 != 0 && strict_check then false
  else b64decodeOk s

/-- The scheme recognition of urllib.parse.urlparse: the text before the
first colon is a scheme when it is nonempty, starts with a letter, and
contains only letters, digits, plus, minus and dot; it is lowercased.
Returns the scheme and the remainder after the colon (or the empty scheme
and the whole input when there is no valid scheme). -/
def splitScheme (l : List Char) : String × List Char :=
  let pre := l.takeWhile (fun c => c ≠ ':')
  if pre.length = l.length then ("", l)
  else
    match pre with
    | [] => ("", l)
    | c :: tl =>
      if c.isAlpha && tl.all (fun d => d.isAlphanum || d = '+' || d = '-' || d = '.') then
        (String.mk ((c :: tl).map Char.toLower), l.drop (pre.length + 1))
      else ("", l)

/-- The netloc of what follows the scheme: present only after a double
slash, extending to the next slash, question mark or hash sign. -/
def netlocOf (rest : List Char) : List Char :=
  match rest with
  | '/' :: '/' :: r => r.takeWhile (fun c => c ≠ '/' && c ≠ '?' && c ≠ '#')
  | _ => []

/-- The URL test both get_method and check_hint_img perform on their input:
urlparse yields a scheme of http or https and a nonempty netloc. -/
def urlIsHttpWithNetloc (s : String) : Bool :=
  let sr := splitScheme s.toList
  (sr.1 = "http" || sr.1 = "https") && !(netlocOf sr.2).isEmpty

/-- The standard base64 alphabet in output order. -/
def b64AlphabetChars : List Char :=
  "ABCDEFGHIJKLMNOPQRSTUVWXYZabcdefghijklmnopqrstuvwxyz0123456789+/".toList

/-- The output character for one 6-bit group. -/
def b64CharOf (n : Nat) : Char :=
  b64AlphabetChars.getD n 'A'

/-- base64.b64encode on raw bytes, grouping three bytes into four output
characters with padding, as the library applies to downloaded content. -/
def b64encodeList : List Nat → List Char
  | [] => []
  | [a] =>
    let a := a % 256
    [b64CharOf (a / 4), b64CharOf (a % 4 * 16), '=', '=']
  | [a, b] =>
    let a := a % 256
    let b := b % 256
    [b64CharOf (a / 4), b64CharOf (a % 4 * 16 + b / 16), b64CharOf (b % 16 * 4), '=']
  | a :: b :: c :: rest =>
    let a := a % 256
    let b := b % 256
    let c := c % 256
    b64CharOf (a / 4) :: b64CharOf (a % 4 * 16 + b / 16) ::
      b64CharOf (b % 16 * 4 + c / 64) :: b64CharOf (c % 64) :: b64encodeList rest

/-- TwoCaptcha.get_method for string input (a non-string or falsy input
raises ValidationException; the claims concern string inputs).  Checks in
source order: a fetchable http or https URL (downloaded and re-encoded as
base64; any RequestException, including the raise_for_status on a 4xx or
5xx status, is surfaced as ValidationException), then an existing local
path, then a base64-shaped string, otherwise ValidationException.  The
oracles fe and fetch stand for os.path.exists and requests.get. -/
def get_method (fe : String → Bool) (fetch : String → FetchOutcome)
    (file_input : String) : Except PyExc Dict :=
  if file_input.toList.isEmpty then
    Except.error (PyExc.validation "File input is required.")
  else if urlIsHttpWithNetloc file_input then
    match fetch file_input with
    | FetchOutcome.exc _ =>
      Except.error (PyExc.validation ("Failed to download file from URL: " ++ file_input))
    | FetchOutcome.resp st content =>
      if 400 ≤ st then
        Except.error (PyExc.validation ("Failed to download file from URL: " ++ file_input))
      else
        Except.ok [("method", PyVal.str "base64"),
                   ("body", PyVal.str (String.mk (b64encodeList content)))]
  else if fe file_input then
    Except.ok [("method", PyVal.str "post"), ("file", PyVal.str file_input)]
  else if is_base64_like file_input false then
    Except.ok [("method", PyVal.str "base64"), ("body", PyVal.str file_input)]
  else
    Except.error
      (PyExc.validation "Invalid file input: not a valid URL, existing file path, or base64 string.")

/-- The read-only configuration of a TwoCaptcha instance, as set by the
constructor.  The constructor defaults are soft_id 4580, callback None,
default_timeout 120, recaptcha_timeout 600, polling_interval 10. -/
structure TwoCaptcha where
  api_key : String
  soft_id : PyVal
  callback : Option String
  default_timeout : ℚ
  recaptcha_timeout : ℚ
  polling_interval : ℚ

/-- A client built with only an api key, taking every constructor default. -/
def mkDefault (key : String) : TwoCaptcha :=
  { api_key := key, soft_id := PyVal.int 4580, callback := Option.none,
    default_timeout := 120, recaptcha_timeout := 600, polling_interval := 10 }

/-- The class the constructor exposes as self.exceptions. -/
def TwoCaptcha.exceptions : PyClass := PyClass.solverExceptions

/-- TwoCaptcha.default_params: sets the key parameter, pops callback and
soft_id with the instance fields as defaults, re-adds them when truthy,
and then evaluates the expression bool(callback) in which the name
callback is not bound in any enclosing scope (the local is callback_val),
so the method unconditionally raises NameError before returning. -/
def default_params (self : TwoCaptcha) (params : Dict) : Except PyExc Dict :=
  let params := dset params "key" (PyVal.str self.api_key)
  let callback_val := (alookup params "callback").getD (pyOfOptionStr self.callback)
  let params := dpop params "callback"
  let soft_id_val := (alookup params "soft_id").getD self.soft_id
  let params := dpop params "soft_id"
  let params :=
    if pyTruthy callback_val then dset params "callback" callback_val else params
  let _ :=
    if pyTruthy soft_id_val then dset params "soft_id" soft_id_val else params
  Except.error (PyExc.nameError "name callback is not defined")

/-- The fixed renaming table of rename_params (the replace dict). -/
def replaceTable : List (String × String) :=
  [("case_sensitive", "regsense"),
   ("min_len", "min_len"),
   ("max_len", "max_len"),
   ("hint_text", "textinstructions"),
   ("hint_img", "imginstructions"),
   ("url", "pageurl"),
   ("score", "min_score"),
   ("text", "textcaptcha"),
   ("rows", "recaptcharows"),
   ("cols", "recaptchacols"),
   ("previous_id", "previousID"),
   ("can_skip", "can_no_answer"),
   ("api_server", "api_server"),
   ("soft_id", "soft_id"),
   ("callback", "pingback"),
   ("datas", "data-s"),
   ("site_key", "sitekey"),
   ("captcha_id", "captchaid"),
   ("app_id", "appid"),
   ("api_key", "apikey")]

/-- The full renaming behaviour of the loop in rename_params: the replace
dict plus the two special-cased keys, user_agent to useragent and sitekey
kept as sitekey.  Keys mapped to none pass through untouched. -/
def renameKey (k : String) : Option String :=
  match alookup replaceTable k with
  | Option.some w => Option.some w
  | Option.none =>
    if k = "user_agent" then Option.some "useragent"
    else if k = "sitekey" then Option.some "sitekey"
    else Option.none

/-- The loop of rename_params: iterate the entries in insertion order,
assigning renamed entries into new_params and leaving the rest in params
(the pops against a snapshot of the keys amount to this partition). -/
def renameLoop (entries : Dict) : Dict × Dict :=
  entries.foldl
    (fun acc kv =>
      match renameKey kv.1 with
      | Option.some w => (dset acc.1 w kv.2, acc.2)
      | Option.none => (acc.1, acc.2 ++ [kv]))
    ([], [])

/-- TwoCaptcha.rename_params: runs the renaming loop, then pops proxy with
default empty string; when the popped value is a truthy dict it assigns the
two scalar wire fields proxy (the uri field, None when missing) and
proxytype (the type field); finally new_params.update(params) merges the
untouched entries over the renamed ones. -/
def rename_params (params : Dict) : Dict :=
  let lp := renameLoop params
  let np := lp.1
  let rem := lp.2
  let proxyv := (alookup rem "proxy").getD (PyVal.str "")
  let rem := dpop rem "proxy"
  let np :=
    match proxyv with
    | PyVal.dict d =>
      if !d.isEmpty then
        dset (dset np "proxy" (((alookup d "uri").map PyVal.str).getD PyVal.none))
          "proxytype" (((alookup d "type").map PyVal.str).getD PyVal.none)
      else np
    | _ => np
  dupdate np rem

/-- The tail of check_hint_img after the URL branch fell through: an
existing path joins the files map, a base64-shaped string stays in params,
anything else raises ValidationException. -/
def check_hint_rest (fe : String → Bool) (params files : Dict) (hint : String) :
    Except PyExc (Dict × Dict) :=
  if fe hint then
    Except.ok (params, dset files "imginstructions" (PyVal.str hint))
  else if is_base64_like hint false then
    Except.ok (dset params "imginstructions" (PyVal.str hint), files)
  else
    Except.error (PyExc.validation "Invalid imginstructions value")

/-- TwoCaptcha.check_hint_img: pops imginstructions and files from the
params; a falsy hint returns immediately; a downloadable http or https
hint is replaced by the base64 of its content (a RequestException,
including raise_for_status, just falls through to the next checks); then
path and base64 checks; a non-string truthy hint would raise an untyped
error inside urlparse. -/
def check_hint_img (fe : String → Bool) (fetch : String → FetchOutcome)
    (params : Dict) : Except PyExc (Dict × Dict) :=
  let hint := alookup params "imginstructions"
  let params := dpop params "imginstructions"
  let files : Dict :=
    match alookup params "files" with
    | Option.some (PyVal.dict d) => d.map (fun kv => (kv.1, PyVal.str kv.2))
    | _ => []
  let params := dpop params "files"
  match hint with
  | Option.none => Except.ok (params, files)
  | Option.some h =>
    if !pyTruthy h then Except.ok (params, files)
    else
      match h with
      | PyVal.str sh =>
        if urlIsHttpWithNetloc sh then
          match fetch sh with
          | FetchOutcome.exc _ => check_hint_rest fe params files sh
          | FetchOutcome.resp st content =>
            if 400 ≤ st then check_hint_rest fe params files sh
            else
              Except.ok
                (dset params "imginstructions"
                  (PyVal.str (String.mk (b64encodeList content))), files)
        else check_hint_rest fe params files sh
      | _ => Except.error (PyExc.typeError "imginstructions is not a string")

/-- The part of TwoCaptcha.send that runs after default_params returned:
rename_params, check_hint_img, the POST through ApiClient.in_, and the
response parse: a body that does not start with the OK marker raises the
solver ApiException, otherwise the substring after the three marker
characters is the returned handle. -/
def send_after_params (fe : String → Bool) (fetch : String → FetchOutcome)
    (o : HttpOutcome) (params : Dict) : Except PyExc String :=
  let params := rename_params params
  match check_hint_img fe fetch params with
  | Except.error e => Except.error e
  | Except.ok pf =>
    match in_ fe pf.2 pf.1 o with
    | Except.error e => Except.error e
    | Except.ok response =>
      if startsWithOK response then Except.ok (afterMarker response)
      else Except.error (PyExc.solverApi ("cannot recognize response " ++ response))

/-- TwoCaptcha.send: default_params first (which raises NameError), then
the rest of the submission pipeline. -/
def send (self : TwoCaptcha) (fe : String → Bool)
    (fetch : String → FetchOutcome) (o : HttpOutcome) (kwargs : Dict) :
    Except PyExc String :=
  match default_params self kwargs with
  | Except.error e => Except.error e
  | Except.ok params => send_after_params fe fetch o params

/-- TwoCaptcha.get_result: one GET through ApiClient.res; the body
CAPCHA_NOT_READY raises the solver NetworkException (the retryable
sentinel), a body not starting with the OK marker raises the solver
ApiException, otherwise the answer after the marker is returned. -/
def get_result (o : HttpOutcome) : Except PyExc String :=
  match res o with
  | Except.error e => Except.error e
  | Except.ok response =>
    if response = "CAPCHA_NOT_READY" then Except.error PyExc.solverNetwork
    else if startsWithOK response then Except.ok (afterMarker response)
    else Except.error (PyExc.solverApi ("cannot recognize response " ++ response))

/-- The loop of TwoCaptcha.wait_result under the idealized clock: while
now is before the deadline, poll; an exception of class
solver NetworkException (the not-ready sentinel) is swallowed and the
clock advances by the sleep interval; any other exception propagates; past
the deadline a TimeoutException carrying the timeout is raised.  The fuel
argument is a modelling artifact: none means the fuel ran out, which is
proven unreachable whenever the interval is positive. -/
def wait_result_go (polls : Nat → HttpOutcome) (timeout maxWait interval : ℚ) :
    ℚ → Nat → Nat → Option (Except PyExc String × Nat)
  | _, _, 0 => Option.none
  | now, k, fuel + 1 =>
    if now < maxWait then
      match get_result (polls k) with
      | Except.ok ans => Option.some (Except.ok ans, k + 1)
      | Except.error e =>
        if caughtBy e PyClass.solverNetworkException then
          wait_result_go polls timeout maxWait interval (now + interval) (k + 1) fuel
        else Option.some (Except.error e, k + 1)
    else Option.some (Except.error (PyExc.timeoutExc timeout), k)

/-- Fuel sufficient for a positive interval: one more than the number of
poll attempts the deadline admits. -/
def wait_fuel (timeout interval : ℚ) : Nat :=
  (Int.ceil (timeout / interval)).toNat + 1

/-- TwoCaptcha.wait_result started at clock t0: the deadline is t0 plus
the timeout, polling starts at attempt 0.  The second component of the
result counts the poll attempts made. -/
def wait_result (polls : Nat → HttpOutcome) (t0 timeout interval : ℚ) :
    Option (Except PyExc String × Nat) :=
  wait_result_go polls timeout (t0 + timeout) interval t0 0 (wait_fuel timeout interval)

/-- Python int() truncation toward zero on the modelled numbers. -/
def pyTruncQ (q : ℚ) : Int :=
  if q < 0 then Int.ceil q else Int.floor q

/-- The effective timeout computed by solve:
float(timeout or self.default_timeout), so a zero or omitted per-call
timeout falls back to the instance default. -/
def effective_timeout (timeout dflt : ℚ) : ℚ :=
  if timeout = 0 then dflt else timeout

/-- The effective sleep interval computed by solve:
int(polling_interval or self.polling_interval), so a zero or omitted
per-call interval falls back to the instance default, and the result is
truncated to an integer by int(). -/
def effective_interval (polling_interval dflt : ℚ) : Int :=
  pyTruncQ (if polling_interval = 0 then dflt else polling_interval)

/-- The part of TwoCaptcha.solve after send returned a captcha id: the
result dict holds the id under captchaId; when a callback is configured
the result is returned at once with no polling, otherwise wait_result is
entered with the effective timeout and interval and the answer joins the
result under code.  The second component counts poll attempts. -/
def solve_post_submit (self : TwoCaptcha) (polls : Nat → HttpOutcome)
    (timeout polling_interval : ℚ) (id_ : String) :
    Option (Except PyExc Dict × Nat) :=
  let result : Dict := [("captchaId", PyVal.str id_)]
  match self.callback with
  | Option.some _ => Option.some (Except.ok result, 0)
  | Option.none =>
    let t := effective_timeout timeout self.default_timeout
    let sleep := effective_interval polling_interval self.polling_interval
    match wait_result polls 0 t (sleep : ℚ) with
    | Option.none => Option.none
    | Option.some (Except.ok code, n) =>
      Option.some (Except.ok (dset result "code" (PyVal.str code)), n)
    | Option.some (Except.error e, n) => Option.some (Except.error e, n)

/-- TwoCaptcha.solve: send, then the post-submission phase. -/
def solve (self : TwoCaptcha) (fe : String → Bool)
    (fetch : String → FetchOutcome) (o : HttpOutcome)
    (polls : Nat → HttpOutcome) (timeout polling_interval : ℚ)
    (kwargs : Dict) : Option (Except PyExc Dict × Nat) :=
  match send self fe fetch o kwargs with
  | Except.error e => Option.some (Except.error e, 0)
  | Except.ok id_ => solve_post_submit self polls timeout polling_interval id_

/-- A client configured with a callback URL and otherwise default settings. -/
def cbClient : TwoCaptcha :=
  { api_key := "KEY", soft_id := PyVal.int 4580,
    callback := Option.some "https://mysite.com/pingback",
    default_timeout := 120, recaptcha_timeout := 600, polling_interval := 10 }

/-- A poll oracle that always reports the captcha as not ready. -/
def notReadyPolls : Nat → HttpOutcome :=
  fun _ => HttpOutcome.response 200 "CAPCHA_NOT_READY"

/-- A poll oracle whose first attempt hits a network failure and whose
later attempts report not ready. -/
def transientFailPolls : Nat → HttpOutcome := fun k =>
  if k = 0 then HttpOutcome.reqError "connection refused"
  else HttpOutcome.response 200 "CAPCHA_NOT_READY"

/-- A string of 21 characters of the base64 alphabet. -/
def sA21 : String := "AAAAAAAAAAAAAAAAAAAAA"

/-- A poll oracle whose first attempt reports not ready and whose second
hits a network failure. -/
def retryThenFailPolls : Nat → HttpOutcome := fun k =>
  if k = 0 then HttpOutcome.response 200 "CAPCHA_NOT_READY"
  else HttpOutcome.reqError "boom"

/-- The input mapping of the C5 counterexample: a single proxy descriptor
entry, whose key is absent from the renaming table. -/
def c5m : Dict := [("proxy", PyVal.dict [("uri", "u:p@1.2.3.4:80"), ("type", "HTTPS")])]

/-- The input mapping of the C6 counterexample: the proxy descriptor of
the claim, together with an explicit proxytype entry and a second key
holding the same descriptor. -/
def c6m : Dict :=
  [("proxy", PyVal.dict [("type", "HTTPS"), ("uri", "u:p@1.2.3.4:80")]),
   ("proxytype", PyVal.str "SOCKS"),
   ("other", PyVal.dict [("type", "HTTPS"), ("uri", "u:p@1.2.3.4:80")])]

/-- The witness mapping for the amended C5 theorem: passthrough keys only,
with a non-dict proxy value. -/
def c5w : Dict := [("foo", PyVal.str "bar"), ("proxy", PyVal.str "u")]

/-- The witness mapping for the amended C6 theorem: the proxy descriptor
together with a key the renaming table translates and a passthrough key. -/
def c6w : Dict :=
  [("url", PyVal.str "https://example.com/page"),
   ("proxy", PyVal.dict [("type", "HTTPS"), ("uri", "u:p@1.2.3.4:80")]),
   ("other", PyVal.str "x")]

/-
Helper lemmas.
-/

/-- Any error the response classification of api.py produces is of one of
the two api-level classes, neither of which SolverExceptions covers. -/
theorem classify_error_escapes (o : HttpOutcome) (e : PyExc)
    (h : classifyResponse o = Except.error e) :
    caughtBy e TwoCaptcha.exceptions = false := by
  cases o with
  | reqError m =>
    simp only [classifyResponse] at h
    cases h
    rfl
  | response st body =>
    simp only [classifyResponse] at h
    by_cases hst : st = 200
    · rw [if_neg (not_not_intro hst)] at h
      by_cases hb : containsERROR body = true
      · rw [if_pos hb] at h
        cases h
        rfl
      · rw [if_neg hb] at h
        cases h
    · rw [if_pos hst] at h
      cases h
      rfl

/-- One loop step of wait_result when the poll hits the not-ready sentinel:
the exception is caught and the clock advances by the sleep interval. -/
theorem wait_go_step_notready {polls : Nat → HttpOutcome}
    {timeout maxWait interval now : ℚ} {k fuel : Nat}
    (hlt : now < maxWait)
    (hpoll : get_result (polls k) = Except.error PyExc.solverNetwork) :
    wait_result_go polls timeout maxWait interval now k (fuel + 1)
      = wait_result_go polls timeout maxWait interval (now + interval) (k + 1) fuel := by
  simp only [wait_result_go, hpoll, if_pos hlt]
  rfl

/-- One loop step of wait_result when the poll raises anything not of the
solver NetworkException class: the exception propagates at once. -/
theorem wait_go_step_error {polls : Nat → HttpOutcome}
    {timeout maxWait interval now : ℚ} {k fuel : Nat} {e : PyExc}
    (hlt : now < maxWait)
    (hpoll : get_result (polls k) = Except.error e)
    (hc : caughtBy e PyClass.solverNetworkException = false) :
    wait_result_go polls timeout maxWait interval now k (fuel + 1)
      = Option.some (Except.error e, k + 1) := by
  simp [wait_result_go, hpoll, if_pos hlt, hc]

/-- One loop step of wait_result at or past the deadline: the timeout
exception is raised. -/
theorem wait_go_deadline {polls : Nat → HttpOutcome}
    {timeout maxWait interval now : ℚ} {k fuel : Nat}
    (hge : ¬ now < maxWait) :
    wait_result_go polls timeout maxWait interval now k (fuel + 1)
      = Option.some (Except.error (PyExc.timeoutExc timeout), k) := by
  simp only [wait_result_go, if_neg hge]

/-- The loop of wait_result when every poll attempt hits the not-ready
sentinel: with a positive interval and enough fuel it reaches the deadline
after exactly the number of attempts the remaining time and the interval
admit. -/
theorem wait_go_notready (polls : Nat → HttpOutcome)
    (timeout maxWait interval : ℚ) (hI : 0 < interval)
    (hall : ∀ k, get_result (polls k) = Except.error PyExc.solverNetwork) :
    ∀ (fuel : Nat) (now : ℚ) (k : Nat),
      (Int.ceil ((maxWait - now) / interval)).toNat < fuel →
      wait_result_go polls timeout maxWait interval now k fuel
        = Option.some (Except.error (PyExc.timeoutExc timeout),
            k + (Int.ceil ((maxWait - now) / interval)).toNat) := by
  intro fuel
  induction fuel with
  | zero =>
    intro now k h
    exact absurd h (Nat.not_lt_zero _)
  | succ n ih =>
    intro now k h
    by_cases hlt : now < maxWait
    · have hpos : (0 : ℤ) < Int.ceil ((maxWait - now) / interval) :=
        Int.ceil_pos.mpr (div_pos (by linarith) hI)
      have hrec : Int.ceil ((maxWait - (now + interval)) / interval)
          = Int.ceil ((maxWait - now) / interval) - 1 := by
        have hdiv : (maxWait - (now + interval)) / interval
            = (maxWait - now) / interval - 1 := by
          rw [show maxWait - (now + interval) = (maxWait - now) - interval by ring,
            sub_div, div_self (ne_of_gt hI)]
        rw [hdiv, Int.ceil_sub_one]
      rw [wait_go_step_notready hlt (hall k)]
      rw [ih (now + interval) (k + 1) (by rw [hrec]; omega)]
      rw [hrec]
      have harith : k + 1 + (Int.ceil ((maxWait - now) / interval) - 1).toNat
          = k + (Int.ceil ((maxWait - now) / interval)).toNat := by omega
      rw [harith]
    · have hle : maxWait - now ≤ 0 := by linarith
      have hc0 : Int.ceil ((maxWait - now) / interval) ≤ 0 := by
        refine Int.ceil_le.mpr ?_
        push_cast
        exact div_nonpos_iff.mpr (Or.inr ⟨hle, le_of_lt hI⟩)
      have harith : k + (Int.ceil ((maxWait - now) / interval)).toNat = k := by omega
      rw [wait_go_deadline hlt, harith]

/-- wait_result when every poll attempt hits the not-ready sentinel: with a
positive interval it terminates in the timeout exception after exactly the
ceiling of timeout over interval attempts. -/
theorem wait_result_notready (polls : Nat → HttpOutcome)
    (t0 timeout interval : ℚ) (hI : 0 < interval)
    (hall : ∀ k, get_result (polls k) = Except.error PyExc.solverNetwork) :
    wait_result polls t0 timeout interval
      = Option.some (Except.error (PyExc.timeoutExc timeout),
          (Int.ceil (timeout / interval)).toNat) := by
  unfold wait_result wait_fuel
  have he : t0 + timeout - t0 = timeout := by ring
  have h := wait_go_notready polls timeout (t0 + timeout) interval hI hall
    ((Int.ceil (timeout / interval)).toNat + 1) t0 0 (by rw [he]; omega)
  rw [he] at h
  simpa using h

/-- The loop of wait_result when the first n poll attempts hit the
not-ready sentinel and attempt n raises an error outside the solver
NetworkException class before the deadline: the n sentinel attempts are
swallowed and retried, and the error of attempt n is surfaced at once. -/
theorem wait_go_surface (polls : Nat → HttpOutcome)
    (timeout maxWait interval : ℚ) (hI : 0 < interval) (e : PyExc)
    (hc : caughtBy e PyClass.solverNetworkException = false) :
    ∀ (n fuel : Nat) (now : ℚ) (k : Nat),
      (∀ j, j < n → get_result (polls (k + j)) = Except.error PyExc.solverNetwork) →
      get_result (polls (k + n)) = Except.error e →
      now + n * interval < maxWait →
      n < fuel →
      wait_result_go polls timeout maxWait interval now k fuel
        = Option.some (Except.error e, k + n + 1) := by
  intro n
  induction n with
  | zero =>
    intro fuel now k hpre hn hdl hf
    match fuel, hf with
    | fuel + 1, _ =>
      have hlt : now < maxWait := by
        have : now + (0 : Nat) * interval = now := by push_cast; ring
        rwa [this] at hdl
      rw [wait_go_step_error hlt (by simpa using hn) hc]
  | succ m ih =>
    intro fuel now k hpre hn hdl hf
    match fuel, hf with
    | fuel + 1, hf =>
      have hmpos : (0 : ℚ) ≤ (m + 1 : Nat) * interval := by
        have : (0 : ℚ) ≤ ((m + 1 : Nat) : ℚ) := by positivity
        exact mul_nonneg this (le_of_lt hI)
      have hlt : now < maxWait := by linarith
      rw [wait_go_step_notready hlt (by simpa using hpre 0 (Nat.succ_pos m))]
      have hpre2 : ∀ j, j < m →
          get_result (polls (k + 1 + j)) = Except.error PyExc.solverNetwork := by
        intro j hj
        have := hpre (j + 1) (by omega)
        rwa [show k + (j + 1) = k + 1 + j by omega] at this
      have hn2 : get_result (polls (k + 1 + m)) = Except.error e := by
        rwa [show k + (m + 1) = k + 1 + m by omega] at hn
      have hdl2 : (now + interval) + m * interval < maxWait := by
        have : (now + interval) + (m : ℚ) * interval = now + ((m : Nat) + 1 : ℚ) * interval := by
          ring
        push_cast at hdl ⊢
        linarith
      have := ih fuel (now + interval) (k + 1) hpre2 hn2 hdl2 (by omega)
      rw [this]
      congr 2
      omega

/-- wait_result when the first n poll attempts hit the not-ready sentinel
and attempt n raises an error outside the solver NetworkException class
while the deadline is not yet reached: the error surfaces as the overall
outcome after n + 1 attempts. -/
theorem wait_result_surface (polls : Nat → HttpOutcome)
    (t0 timeout interval : ℚ) (n : Nat) (e : PyExc) (hI : 0 < interval)
    (hc : caughtBy e PyClass.solverNetworkException = false)
    (hpre : ∀ j, j < n → get_result (polls j) = Except.error PyExc.solverNetwork)
    (hn : get_result (polls n) = Except.error e)
    (hdl : (n : ℚ) * interval < timeout) :
    wait_result polls t0 timeout interval = Option.some (Except.error e, n + 1) := by
  unfold wait_result
  have hfuel : n < wait_fuel timeout interval := by
    have hlt : (n : ℤ) < Int.ceil (timeout / interval) := by
      rw [Int.lt_ceil]
      push_cast
      rw [lt_div_iff₀ hI]
      linarith
    unfold wait_fuel
    omega
  have h := wait_go_surface polls timeout (t0 + timeout) interval hI e hc n
    (wait_fuel timeout interval) t0 0
    (fun j hj => by simpa using hpre j hj)
    (by simpa using hn)
    (by linarith)
    hfuel
  simpa using h

/-- A base64-alphabet character is not a colon. -/
theorem isB64Char_ne_colon {c : Char} (h : isB64Char c = true) : c ≠ ':' := by
  intro he
  subst he
  exact absurd h (by decide)

/-- A base64-alphabet character is not a newline. -/
theorem isB64Char_ne_nl {c : Char} (h : isB64Char c = true) : c ≠ '\n' := by
  intro he
  subst he
  exact absurd h (by decide)

/-- A nonempty character list is not isEmpty. -/
theorem isEmpty_false_of_len {l : List Char} (h : l.length ≠ 0) :
    l.isEmpty = false := by
  cases l with
  | nil => exact absurd rfl h
  | cons a t => rfl

/-- takeWhile splits exactly at the junction when the prefix wholly
satisfies the predicate and the continuation starts with a failure. -/
theorem takeWhile_all_append (q : Char → Bool) (ds rs : List Char)
    (h1 : ∀ c ∈ ds, q c = true)
    (h2 : match rs with | [] => True | c :: _ => q c = false) :
    (ds ++ rs).takeWhile q = ds := by
  induction ds with
  | nil =>
    simp only [List.nil_append]
    cases rs with
    | nil => rfl
    | cons c t =>
      have h2c : q c = false := h2
      simp [List.takeWhile_cons, h2c]
  | cons a tl ih =>
    have ha : q a = true := h1 a (List.mem_cons_self a tl)
    simp only [List.cons_append, List.takeWhile_cons, ha, if_true]
    rw [ih (fun c hc => h1 c (List.mem_cons_of_mem a hc))]

/-- stripNl is the identity on newline-free lists. -/
theorem stripNl_eq_self {l : List Char} (h : ∀ c ∈ l, c ≠ '\n') :
    stripNl l = l := by
  unfold stripNl
  cases hg : l.getLast? with
  | none => rfl
  | some c =>
    have hmem : c ∈ l := by
      obtain ⟨hne, hceq⟩ :=
        List.mem_getLast?_eq_getLast (show c ∈ l.getLast? from by rw [hg]; rfl)
      rw [hceq]
      exact List.getLast_mem hne
    show (if c = '\n' then l.dropLast else l) = l
    rw [if_neg (h c hmem)]

/-- splitScheme yields the empty scheme on colon-free input. -/
theorem splitScheme_no_colon {l : List Char} (h : ∀ c ∈ l, c ≠ ':') :
    splitScheme l = ("", l) := by
  unfold splitScheme
  have ht : l.takeWhile (fun c => c ≠ ':') = l :=
    List.takeWhile_eq_self_iff.mpr (fun x hx => decide_eq_true (h x hx))
  rw [ht, if_pos rfl]

/-- The URL test of get_method fails on colon-free strings: without a
colon, urlparse finds no scheme at all. -/
theorem url_false_of_no_colon {s : String} (h : ∀ c ∈ s.toList, c ≠ ':') :
    urlIsHttpWithNetloc s = false := by
  have hsp : splitScheme s.toList = ("", s.toList) := splitScheme_no_colon h
  simp only [urlIsHttpWithNetloc, hsp]
  rfl

/-- _is_base64_like accepts every base64-alphabet string of length at
least 20 whose data-character count and padding base64.b64decode accepts. -/
theorem is_base64_like_true {s : String} {ds : List Char} {p : Nat}
    (hs : s.toList = ds ++ List.replicate p '=')
    (hds : ∀ c ∈ ds, isB64Char c = true)
    (hp : p ≤ 2)
    (hlen : 20 ≤ s.length)
    (hacc : ds.length % 4 = 0 ∨ (ds.length % 4 = 2 ∧ p = 2)
      ∨ (ds.length % 4 = 3 ∧ 1 ≤ p)) :
    is_base64_like s false = true := by
  have hlens : s.length = s.toList.length := rfl
  have hlenlist : s.toList.length = ds.length + p := by
    rw [hs, List.length_append, List.length_replicate]
  have hnl : ∀ c ∈ s.toList, c ≠ '\n' := by
    intro c hc
    rw [hs] at hc
    rcases List.mem_append.mp hc with hc | hc
    · exact isB64Char_ne_nl (hds c hc)
    · rw [List.eq_of_mem_replicate hc]
      decide
  have hstrip : stripNl s.toList = s.toList := stripNl_eq_self hnl
  have htake : (s.toList).takeWhile isB64Char = ds := by
    rw [hs]
    refine takeWhile_all_append isB64Char ds (List.replicate p '=') hds ?_
    cases p with
    | zero => exact trivial
    | succ n => exact (by decide : isB64Char '=' = false)
  have hdrop : (s.toList).drop ds.length = List.replicate p '=' := by
    conv_lhs => rw [hs]
    have : ds.length = ds.length := rfl
    exact List.drop_left ds (List.replicate p '=')
  have hshape : b64Shape s = true := by
    simp only [b64Shape, hstrip, htake, hdrop]
    have hall : (List.replicate p '=').all (fun c => c = '=') = true := by
      rw [List.all_eq_true]
      intro c hc
      exact decide_eq_true (List.eq_of_mem_replicate hc)
    rw [hall]
    simp only [List.length_replicate, Bool.true_and]
    exact decide_eq_true hp
  have hdec : b64decodeOk s = true := by
    simp only [b64decodeOk, hstrip, htake, hlenlist]
    have hsub : ds.length + p - ds.length = p := by omega
    rw [hsub]
    rcases hacc with h | ⟨h, hq⟩ | ⟨h, hq⟩
    · simp [h]
    · subst hq
      simp [h]
    · simp [h, Nat.one_le_iff_ne_zero.mp hq, decide_eq_true hq]
  have hneL : ¬ s.data = [] := by
    intro he
    have h0 : s.toList.length = 0 := by
      rw [show s.toList = s.data from rfl, he]
      rfl
    omega
  have hlt : ¬ s.length < 20 := by omega
  simp [is_base64_like, hneL, hlt, hshape, hdec]

/-- Assignment of an absent key appends the entry at the end. -/
theorem dset_not_mem (d : Dict) (k : String) (v : PyVal) (h : ¬ k ∈ dkeys d) :
    dset d k v = d ++ [(k, v)] := by
  induction d with
  | nil => rfl
  | cons kv tl ih =>
    obtain ⟨k2, v2⟩ := kv
    have hk : ¬ k2 = k := by
      intro he
      exact h (by simp [dkeys, he])
    have htl : ¬ k ∈ dkeys tl := by
      intro he
      exact h (by simp [dkeys] at he ⊢; exact Or.inr he)
    simp only [dset, if_neg hk, List.cons_append]
    rw [ih htl]

/-- Updating with a mapping whose keys are fresh and pairwise distinct
appends it. -/
theorem dupdate_disjoint (e : Dict) :
    ∀ (d : Dict), (∀ k ∈ dkeys e, ¬ k ∈ dkeys d) → keysNodup e →
      dupdate d e = d ++ e := by
  induction e with
  | nil =>
    intro d _ _
    simp [dupdate]
  | cons kv tl ih =>
    intro d hdisj hnd
    obtain ⟨k, v⟩ := kv
    have hk : ¬ k ∈ dkeys d := hdisj k (by simp [dkeys])
    have hstep : dupdate d ((k, v) :: tl) = dupdate (d ++ [(k, v)]) tl := by
      simp only [dupdate, List.foldl_cons]
      rw [dset_not_mem d k v hk]
    rw [hstep]
    have hnd2 : keysNodup tl := by
      simp only [keysNodup, dkeys, List.map_cons, List.nodup_cons] at hnd
      exact hnd.2
    have hknot : ¬ k ∈ dkeys tl := by
      simp only [keysNodup, dkeys, List.map_cons, List.nodup_cons] at hnd
      simpa [dkeys] using hnd.1
    have hdisj2 : ∀ k2 ∈ dkeys tl, ¬ k2 ∈ dkeys (d ++ [(k, v)]) := by
      intro k2 hk2 hmem
      simp only [dkeys, List.map_append] at hmem
      rcases List.mem_append.mp hmem with hmem | hmem
      · refine hdisj k2 ?_ hmem
        simp only [dkeys, List.map_cons]
        exact List.mem_cons_of_mem k hk2
      · simp at hmem
        subst hmem
        exact hknot hk2
    rw [ih (d ++ [(k, v)]) hdisj2 hnd2, List.append_assoc]
    rfl

/-- Updating the empty mapping with a well-formed mapping yields it. -/
theorem dupdate_nil (r : Dict) (h : keysNodup r) : dupdate [] r = r := by
  have := dupdate_disjoint r [] (fun k _ hk => by simp [dkeys] at hk) h
  simpa using this

/-- After popping a key it is gone. -/
theorem alookup_dpop_self (d : Dict) (k : String) :
    alookup (dpop d k) k = Option.none := by
  induction d with
  | nil => rfl
  | cons kv tl ih =>
    obtain ⟨k2, v2⟩ := kv
    by_cases hk : k2 = k
    · simpa [dpop, List.filter_cons, hk] using ih
    · simpa [dpop, List.filter_cons, hk, alookup] using ih

/-- Popping a key of a well-formed mapping keeps it well formed. -/
theorem keysNodup_dpop (d : Dict) (k : String) (h : keysNodup d) :
    keysNodup (dpop d k) := by
  have hs : List.Sublist ((dpop d k).map Prod.fst) (d.map Prod.fst) :=
    (List.filter_sublist d).map Prod.fst
  exact List.Nodup.sublist hs h

/-- Popping is idempotent. -/
theorem dpop_idem (d : Dict) (k : String) : dpop (dpop d k) k = dpop d k := by
  unfold dpop
  rw [List.filter_filter]
  simp

/-- Entries survive popping only if they were entries before. -/
theorem mem_of_mem_dpop {d : Dict} {k : String} {kv : String × PyVal}
    (h : kv ∈ dpop d k) : kv ∈ d :=
  List.mem_of_mem_filter h

/-- The fold of the renaming loop over entries none of which the renaming
touches just appends them to the params accumulator. -/
theorem renameLoop_fold_none :
    ∀ (entries : Dict) (acc : Dict × Dict),
      (∀ kv ∈ entries, renameKey kv.1 = Option.none) →
      entries.foldl
        (fun acc kv =>
          match renameKey kv.1 with
          | Option.some w => (dset acc.1 w kv.2, acc.2)
          | Option.none => (acc.1, acc.2 ++ [kv]))
        acc = (acc.1, acc.2 ++ entries) := by
  intro entries
  induction entries with
  | nil =>
    intro acc _
    simp
  | cons kv tl ih =>
    intro acc hall
    simp only [List.foldl_cons, hall kv (List.mem_cons_self kv tl)]
    rw [ih (acc.1, acc.2 ++ [kv]) (fun x hx => hall x (List.mem_cons_of_mem kv hx))]
    simp

/-- The renaming loop leaves a mapping of untranslated keys untouched:
new_params stays empty and every entry remains in params. -/
theorem renameLoop_all_none (entries : Dict)
    (h : ∀ kv ∈ entries, renameKey kv.1 = Option.none) :
    renameLoop entries = ([], entries) := by
  unfold renameLoop
  exact (renameLoop_fold_none entries ([], []) h).trans (by simp)

/-- On a mapping of untranslated keys whose proxy entry, if any, is not a
proxy descriptor, rename_params just pops the proxy key. -/
theorem rename_params_passthrough (x : Dict)
    (hk : ∀ kv ∈ x, renameKey kv.1 = Option.none)
    (hnd : keysNodup x)
    (hpx : ∀ d, alookup x "proxy" = Option.some (PyVal.dict d) → d = []) :
    rename_params x = dpop x "proxy" := by
  have hnd2 : keysNodup (dpop x "proxy") := keysNodup_dpop x "proxy" hnd
  simp only [rename_params, renameLoop_all_none x hk]
  rcases hpv : alookup x "proxy" with _ | v
  · exact dupdate_nil _ hnd2
  · rcases v with t | n | d | _
    · exact dupdate_nil _ hnd2
    · exact dupdate_nil _ hnd2
    · have hd : d = [] := hpx d hpv
      subst hd
      exact dupdate_nil _ hnd2
    · exact dupdate_nil _ hnd2

/-- A successful lookup comes from an entry. -/
theorem alookup_mem {α : Type} {t : List (String × α)} {k : String} {v : α}
    (h : alookup t k = Option.some v) : (k, v) ∈ t := by
  induction t with
  | nil => cases h
  | cons p tl ih =>
    obtain ⟨k1, v1⟩ := p
    by_cases h1 : k1 = k
    · subst h1
      simp only [alookup, if_pos rfl] at h
      cases h
      exact List.mem_cons_self _ _
    · simp only [alookup, if_neg h1] at h
      exact List.mem_cons_of_mem _ (ih h)

/-- An entry of an assignment result either was there or is the assigned
pair. -/
theorem mem_dset {d : Dict} {k : String} {v : PyVal} {pr : String × PyVal}
    (h : pr ∈ dset d k v) : pr ∈ d ∨ pr = (k, v) := by
  induction d with
  | nil =>
    simp only [dset] at h
    exact Or.inr (List.mem_singleton.mp h)
  | cons p tl ih =>
    obtain ⟨k1, v1⟩ := p
    simp only [dset] at h
    by_cases h1 : k1 = k
    · rw [if_pos h1] at h
      rcases List.mem_cons.mp h with h | h
      · subst h1
        exact Or.inr (by rw [h])
      · exact Or.inl (List.mem_cons_of_mem _ h)
    · rw [if_neg h1] at h
      rcases List.mem_cons.mp h with h | h
      · exact Or.inl (by rw [h]; exact List.mem_cons_self _ _)
      · rcases ih h with h | h
        · exact Or.inl (List.mem_cons_of_mem _ h)
        · exact Or.inr h

/-- An entry of an update either was in the base or comes from the update. -/
theorem mem_dupdate : ∀ {e d : Dict} {pr : String × PyVal},
    pr ∈ dupdate d e → pr ∈ d ∨ pr ∈ e := by
  intro e
  induction e with
  | nil =>
    intro d pr h
    exact Or.inl (by simpa [dupdate] using h)
  | cons kv tl ih =>
    intro d pr h
    have hstep : dupdate d (kv :: tl) = dupdate (dset d kv.1 kv.2) tl := by
      simp [dupdate, List.foldl_cons]
    rw [hstep] at h
    rcases ih h with h | h
    · rcases mem_dset h with h | h
      · exact Or.inl h
      · right
        rw [h, Prod.mk.eta]
        exact List.mem_cons_self _ _
    · exact Or.inr (List.mem_cons_of_mem _ h)

/-- Lookup of an assignment at the assigned key. -/
theorem alookup_dset_eq (d : Dict) (k : String) (v : PyVal) :
    alookup (dset d k v) k = Option.some v := by
  induction d with
  | nil => simp [dset, alookup]
  | cons p tl ih =>
    obtain ⟨k1, v1⟩ := p
    by_cases h1 : k1 = k
    · subst h1
      simp [dset, alookup]
    · simp [dset, alookup, h1, ih]

/-- Lookup of an assignment at another key. -/
theorem alookup_dset_ne (d : Dict) (k k2 : String) (v : PyVal) (h : k2 ≠ k) :
    alookup (dset d k v) k2 = alookup d k2 := by
  induction d with
  | nil => simp [dset, alookup, Ne.symm h]
  | cons p tl ih =>
    obtain ⟨k1, v1⟩ := p
    by_cases h1 : k1 = k
    · subst h1
      simp [dset, alookup, Ne.symm h]
    · simp only [dset, if_neg h1, alookup]
      by_cases h2 : k1 = k2
      · rw [if_pos h2, if_pos h2]
      · rw [if_neg h2, if_neg h2]
        exact ih

/-- Lookup of the updated mapping: entries of the update win, the base is
the fallback (for a well-formed update). -/
theorem alookup_dupdate (e : Dict) (hnd : keysNodup e) :
    ∀ (d : Dict) (k : String),
      alookup (dupdate d e) k
        = match alookup e k with
          | Option.some v => Option.some v
          | Option.none => alookup d k := by
  induction e with
  | nil =>
    intro d k
    simp [dupdate, alookup]
  | cons p tl ih =>
    intro d k
    obtain ⟨k1, v1⟩ := p
    have hnd2 : keysNodup tl := by
      simp only [keysNodup, dkeys, List.map_cons, List.nodup_cons] at hnd
      exact hnd.2
    have hknot : ¬ k1 ∈ dkeys tl := by
      simp only [keysNodup, dkeys, List.map_cons, List.nodup_cons] at hnd
      simpa [dkeys] using hnd.1
    have hstep : dupdate d ((k1, v1) :: tl) = dupdate (dset d k1 v1) tl := by
      simp [dupdate, List.foldl_cons]
    rw [hstep, ih hnd2 (dset d k1 v1) k]
    by_cases h1 : k1 = k
    · subst h1
      have htl : alookup tl k1 = Option.none := by
        cases hl : alookup tl k1 with
        | none => rfl
        | some v =>
          exfalso
          apply hknot
          simp only [dkeys, List.mem_map]
          exact ⟨(k1, v), alookup_mem hl, rfl⟩
      rw [htl]
      simp [alookup, alookup_dset_eq]
    · have hcons : alookup ((k1, v1) :: tl) k = alookup tl k := by
        simp [alookup, h1]
      rw [hcons]
      cases hl : alookup tl k with
      | none => rw [alookup_dset_ne d k1 k v1 (fun he => h1 he.symm)]
      | some v => rfl

/-- Lookup through a key-based filter that keeps the queried key. -/
theorem alookup_filter_key (p : String → Bool) (m : Dict) (k : String)
    (hp : p k = true) :
    alookup (m.filter (fun kv => p kv.1)) k = alookup m k := by
  induction m with
  | nil => rfl
  | cons q tl ih =>
    obtain ⟨k1, v1⟩ := q
    by_cases h1 : k1 = k
    · subst h1
      simp [List.filter_cons, hp, alookup]
    · cases hk1 : p k1 with
      | false =>
        rw [List.filter_cons, if_neg (by simp [hk1])]
        rw [ih]
        simp [alookup, h1]
      | true =>
        rw [List.filter_cons, if_pos (by simp [hk1])]
        simp only [alookup, if_neg h1]
        exact ih

/-- Well-formed keys survive filtering. -/
theorem keysNodup_filter (d : Dict) (p : String × PyVal → Bool)
    (h : keysNodup d) : keysNodup (d.filter p) := by
  have hs : List.Sublist ((d.filter p).map Prod.fst) (d.map Prod.fst) :=
    (List.filter_sublist d).map Prod.fst
  exact List.Nodup.sublist hs h

/-- The renaming loop never writes the wire keys proxy or proxytype. -/
theorem renameKey_target (k w : String) (h : renameKey k = Option.some w) :
    w ≠ "proxy" ∧ w ≠ "proxytype" := by
  unfold renameKey at h
  rcases halt : alookup replaceTable k with _ | w2
  · rw [halt] at h
    by_cases h1 : k = "user_agent"
    · rw [if_pos h1] at h
      cases h
      exact ⟨by decide, by decide⟩
    · rw [if_neg h1] at h
      by_cases h2 : k = "sitekey"
      · rw [if_pos h2] at h
        cases h
        exact ⟨by decide, by decide⟩
      · rw [if_neg h2] at h
        cases h
  · rw [halt] at h
    cases h
    have hmem : (k, w) ∈ replaceTable := alookup_mem halt
    have hall : ∀ p ∈ replaceTable, p.2 ≠ "proxy" ∧ p.2 ≠ "proxytype" := by decide
    exact hall (k, w) hmem

/-- The params side of the renaming loop is the untranslated entries. -/
theorem renameLoop_fold_snd (entries : Dict) :
    ∀ (acc : Dict × Dict),
      (entries.foldl
        (fun acc kv =>
          match renameKey kv.1 with
          | Option.some w => (dset acc.1 w kv.2, acc.2)
          | Option.none => (acc.1, acc.2 ++ [kv]))
        acc).2
        = acc.2 ++ entries.filter (fun kv => (renameKey kv.1).isNone) := by
  induction entries with
  | nil =>
    intro acc
    simp
  | cons kv tl ih =>
    intro acc
    simp only [List.foldl_cons]
    cases hrk : renameKey kv.1 with
    | none =>
      rw [ih (acc.1, acc.2 ++ [kv])]
      rw [List.filter_cons, if_pos (by simp [hrk])]
      simp
    | some w =>
      rw [ih (dset acc.1 w kv.2, acc.2)]
      rw [List.filter_cons, if_neg (by simp [hrk])]

/-- Provenance of new_params entries in the renaming loop: each one was
already accumulated or is a renamed entry. -/
theorem renameLoop_fold_fst_mem (entries : Dict) :
    ∀ (acc : Dict × Dict) (pr : String × PyVal),
      pr ∈ (entries.foldl
        (fun acc kv =>
          match renameKey kv.1 with
          | Option.some w => (dset acc.1 w kv.2, acc.2)
          | Option.none => (acc.1, acc.2 ++ [kv]))
        acc).1 →
      pr ∈ acc.1 ∨ ∃ kv, kv ∈ entries ∧
        ∃ w, renameKey kv.1 = Option.some w ∧ pr = (w, kv.2) := by
  induction entries with
  | nil =>
    intro acc pr h
    exact Or.inl h
  | cons kv tl ih =>
    intro acc pr h
    simp only [List.foldl_cons] at h
    cases hrk : renameKey kv.1 with
    | none =>
      rw [hrk] at h
      rcases ih (acc.1, acc.2 ++ [kv]) pr h with h | ⟨kv2, hkv2, w, hw, hpr⟩
      · exact Or.inl h
      · exact Or.inr ⟨kv2, List.mem_cons_of_mem _ hkv2, w, hw, hpr⟩
    | some w =>
      rw [hrk] at h
      rcases ih (dset acc.1 w kv.2, acc.2) pr h with h | ⟨kv2, hkv2, w2, hw2, hpr⟩
      · rcases mem_dset h with h | h
        · exact Or.inl h
        · exact Or.inr ⟨kv, List.mem_cons_self _ _, w, hrk, h⟩
      · exact Or.inr ⟨kv2, List.mem_cons_of_mem _ hkv2, w2, hw2, hpr⟩

/-- new_params never holds the keys proxy or proxytype after the loop. -/
theorem renameLoop_fst_lookup_none (m : Dict) (k : String)
    (hk : ∀ (k2 w : String), renameKey k2 = Option.some w → w ≠ k) :
    alookup (renameLoop m).1 k = Option.none := by
  cases hl : alookup (renameLoop m).1 k with
  | none => rfl
  | some v =>
    exfalso
    have hmem : (k, v) ∈ (renameLoop m).1 := alookup_mem hl
    have hprov := renameLoop_fold_fst_mem m ([], []) (k, v)
      (by unfold renameLoop at hmem; exact hmem)
    rcases hprov with h | ⟨kv, _, w, hw, hpr⟩
    · simp at h
    · injection hpr with h1 _
      exact hk kv.1 w hw h1.symm

/-
Theorems settling the claims.
-/

/-- Claim C3: wait_result with timeout 5 and interval 2, every poll
reporting not ready, terminates in the timeout exception after exactly 3
poll attempts (within the claimed bounds of 2 and 3); in general, for any
positive interval, the attempt count is the ceiling of timeout over
interval, i.e. it is determined by elapsed time against the deadline, not
by a retry counter. -/
theorem c3_wait_result_hard_deadline :
    (∀ (polls : Nat → HttpOutcome) (t0 timeout interval : ℚ),
      0 < interval →
      (∀ k, polls k = HttpOutcome.response 200 "CAPCHA_NOT_READY") →
      wait_result polls t0 timeout interval
        = Option.some (Except.error (PyExc.timeoutExc timeout),
            (Int.ceil (timeout / interval)).toNat)) ∧
    wait_result notReadyPolls 0 5 2
      = Option.some (Except.error (PyExc.timeoutExc 5), 3) ∧
    2 ≤ 3 ∧ 3 ≤ 3 := by
  have hgen : ∀ (polls : Nat → HttpOutcome) (t0 timeout interval : ℚ),
      0 < interval →
      (∀ k, polls k = HttpOutcome.response 200 "CAPCHA_NOT_READY") →
      wait_result polls t0 timeout interval
        = Option.some (Except.error (PyExc.timeoutExc timeout),
            (Int.ceil (timeout / interval)).toNat) := by
    intro polls t0 timeout interval hI hall
    refine wait_result_notready polls t0 timeout interval hI (fun k => ?_)
    rw [hall k]
    rfl
  refine ⟨hgen, ?_, by norm_num, le_refl 3⟩
  have h := hgen notReadyPolls 0 5 2 (by norm_num) (fun k => rfl)
  rw [h]
  have h2 : Int.ceil ((5 : ℚ) / 2) = 3 := by
    rw [Int.ceil_eq_iff]; norm_num
  rw [h2]
  rfl

/-- Witness for the general part of the C3 theorem, at timeout 7 and
interval 3 with every poll not ready. -/
theorem c3_wait_result_hard_deadline_witness :
    wait_result notReadyPolls 0 7 3
      = Option.some (Except.error (PyExc.timeoutExc 7),
          (Int.ceil ((7 : ℚ) / 3)).toNat) :=
  c3_wait_result_hard_deadline.1 notReadyPolls 0 7 3 (by norm_num) (fun k => rfl)

/-- Claim C2 as amended: during polling, only the not-ready sentinel
(raised internally as the solver-level NetworkException) is swallowed and
converted into sleep-then-retry; a transport error raised by the HTTP
layer (the api-level NetworkException) during a poll attempt before the
deadline is surfaced to the caller immediately, after the sentinel
attempts that preceded it. -/
theorem c2_amended (polls : Nat → HttpOutcome) (t0 timeout interval : ℚ)
    (n : Nat) (msg : String) (hI : 0 < interval)
    (hpre : ∀ j, j < n → polls j = HttpOutcome.response 200 "CAPCHA_NOT_READY")
    (hn : polls n = HttpOutcome.reqError msg)
    (hdl : (n : ℚ) * interval < timeout) :
    wait_result polls t0 timeout interval
      = Option.some (Except.error (PyExc.apiNetwork msg), n + 1) := by
  refine wait_result_surface polls t0 timeout interval n (PyExc.apiNetwork msg) hI rfl
    (fun j hj => ?_) (by rw [hn]; rfl) hdl
  rw [hpre j hj]
  rfl

/-- Witness for the amended C2 theorem: one sentinel attempt is retried,
then the transport error of the second attempt surfaces. -/
theorem c2_amended_witness :
    wait_result retryThenFailPolls 0 5 2
      = Option.some (Except.error (PyExc.apiNetwork "boom"), 2) :=
  c2_amended retryThenFailPolls 0 5 2 1 "boom" (by norm_num)
    (fun j hj => by rw [Nat.lt_one_iff.mp hj]; rfl)
    rfl (by norm_num)

/-- Claim C9: default_params evaluates bool(callback) with the name
callback unbound in every enclosing scope, so every call to it, and hence
every call to send, raises an untyped NameError before any request is
issued; NameError is not one of the typed SolverExceptions. -/
theorem c9_default_params_raises_nameerror :
    (∀ (self : TwoCaptcha) (params : Dict),
      default_params self params
        = Except.error (PyExc.nameError "name callback is not defined")) ∧
    (∀ (self : TwoCaptcha) (fe : String → Bool) (fetch : String → FetchOutcome)
      (o : HttpOutcome) (kwargs : Dict),
      send self fe fetch o kwargs
        = Except.error (PyExc.nameError "name callback is not defined")) ∧
    caughtBy (PyExc.nameError "name callback is not defined") TwoCaptcha.exceptions
      = false := by
  refine ⟨fun self params => rfl, fun self fe fetch o kwargs => ?_, by decide⟩
  simp [send, default_params]

/-- Claim C1 (code bug): a call to send never reaches the service, because
default_params raises NameError first (first conjunct evaluates send at the
failing input, a plain submission with the service ready to answer
OK|abc123).  The remaining conjuncts evaluate the submission pipeline
after the point of the bug: the response body OK|abc123 yields the handle
abc123, the body ERROR: bad key raises the api-level ApiException from the
transport, and an HTTP 500 status raises the api-level NetworkException. -/
theorem c1_send_nameerror_and_response_classification :
    send (mkDefault "KEY") (fun _ => false) (fun _ => FetchOutcome.exc "")
        (HttpOutcome.response 200 "OK|abc123") [("method", PyVal.str "post")]
      = Except.error (PyExc.nameError "name callback is not defined") ∧
    send_after_params (fun _ => false) (fun _ => FetchOutcome.exc "")
        (HttpOutcome.response 200 "OK|abc123")
        [("key", PyVal.str "KEY"), ("method", PyVal.str "post")]
      = Except.ok "abc123" ∧
    send_after_params (fun _ => false) (fun _ => FetchOutcome.exc "")
        (HttpOutcome.response 200 "ERROR: bad key")
        [("key", PyVal.str "KEY"), ("method", PyVal.str "post")]
      = Except.error (PyExc.apiApi "ERROR: bad key") ∧
    send_after_params (fun _ => false) (fun _ => FetchOutcome.exc "")
        (HttpOutcome.response 500 "oops")
        [("key", PyVal.str "KEY"), ("method", PyVal.str "post")]
      = Except.error (PyExc.apiNetwork "bad response: 500") := by
  refine ⟨rfl, rfl, rfl, rfl⟩

/-- Claim C7 (code bug): with a callback URL configured, solve never
returns a result, because send raises NameError on every call (first
conjunct evaluates solve at the failing input, with zero poll attempts
made).  The second conjunct evaluates the phase after submission: had
submission produced a handle, the configured callback would make solve
return only the captchaId entry with zero poll attempts, for every handle
and every timeout and interval. -/
theorem c7_solve_callback_nameerror_and_zero_polls :
    solve cbClient (fun _ => false) (fun _ => FetchOutcome.exc "")
        (HttpOutcome.response 200 "OK|abc123") notReadyPolls 0 0
        [("method", PyVal.str "post")]
      = Option.some
          (Except.error (PyExc.nameError "name callback is not defined"), 0) ∧
    ∀ (id_ : String) (timeout polling_interval : ℚ) (polls : Nat → HttpOutcome),
      solve_post_submit cbClient polls timeout polling_interval id_
        = Option.some (Except.ok [("captchaId", PyVal.str id_)], 0) := by
  exact ⟨rfl, fun id_ timeout polling_interval polls => rfl⟩

/-- Claim C10: the api-level NetworkException and ApiException are
distinct from the identically named solver classes and are not subclasses
of SolverExceptions (the class exposed as the exceptions attribute), so a
caller catching it does not catch anything either transport entry point
raises. -/
theorem c10_api_exceptions_escape_solver_exceptions :
    isSubclass PyClass.apiNetworkException PyClass.solverExceptions = false ∧
    isSubclass PyClass.apiApiException PyClass.solverExceptions = false ∧
    isSubclass PyClass.apiNetworkException PyClass.solverNetworkException = false ∧
    isSubclass PyClass.apiApiException PyClass.solverApiException = false ∧
    PyClass.apiNetworkException ≠ PyClass.solverNetworkException ∧
    PyClass.apiApiException ≠ PyClass.solverApiException ∧
    (∀ (fe : String → Bool) (files kwargs : Dict) (o : HttpOutcome) (e : PyExc),
      in_ fe files kwargs o = Except.error e →
        caughtBy e TwoCaptcha.exceptions = false) ∧
    (∀ (o : HttpOutcome) (e : PyExc),
      res o = Except.error e → caughtBy e TwoCaptcha.exceptions = false) := by
  refine ⟨by decide, by decide, by decide, by decide, by decide, by decide, ?_, ?_⟩
  · intro fe files kwargs o e h
    unfold in_ at h
    by_cases hp : ((in_paths files kwargs).any fun p => !fe p) = true
    · rw [if_pos hp] at h
      cases h
      rfl
    · rw [if_neg hp] at h
      exact classify_error_escapes o e h
  · intro o e h
    exact classify_error_escapes o e h

/-- Witness for the two implications of the C10 theorem, at an HTTP 500
submission outcome and an error-marker polling body. -/
theorem c10_api_exceptions_escape_solver_exceptions_witness :
    caughtBy (PyExc.apiNetwork "bad response: 500") TwoCaptcha.exceptions = false ∧
    caughtBy (PyExc.apiApi "ERROR_WRONG_USER_KEY") TwoCaptcha.exceptions = false :=
  ⟨c10_api_exceptions_escape_solver_exceptions.2.2.2.2.2.2.1
      (fun _ => false) [] [] (HttpOutcome.response 500 "x")
      (PyExc.apiNetwork "bad response: 500") rfl,
   c10_api_exceptions_escape_solver_exceptions.2.2.2.2.2.2.2
      (HttpOutcome.response 200 "ERROR_WRONG_USER_KEY")
      (PyExc.apiApi "ERROR_WRONG_USER_KEY") rfl⟩

/-- Claim C8, counterexample: the sleep interval solve computes for the
per-call fractional override 0.5 under the constructor default 10 is
int(0.5), which is 0, not strictly positive. -/
theorem c8_counterexample :
    effective_interval (1 / 2) 10 = 0 ∧ ¬ (0 < effective_interval (1 / 2) 10) := by
  have h : effective_interval (1 / 2) 10 = 0 := by
    unfold effective_interval pyTruncQ
    rw [if_neg (by norm_num : ¬ (1 / 2 : ℚ) = 0),
      if_neg (by norm_num : ¬ (1 / 2 : ℚ) < 0)]
    norm_num
  exact ⟨h, by rw [h]; exact lt_irrefl 0⟩

/-- Claim C8 as amended: under the constructor defaults (timeout 120,
interval 10), for every nonnegative per-call override pair the effective
timeout is strictly positive, but the effective sleep interval is strictly
positive exactly when the per-call interval is zero or omitted (falling
back to the default) or at least 1; a fractional override strictly between
0 and 1 is truncated by int() to a zero sleep. -/
theorem c8_amended (t p : ℚ) (ht : 0 ≤ t) (hp : 0 ≤ p) :
    0 < effective_timeout t 120 ∧
    (0 < effective_interval p 10 ↔ (p = 0 ∨ 1 ≤ p)) := by
  constructor
  · unfold effective_timeout
    split
    · norm_num
    · rename_i h
      exact lt_of_le_of_ne ht (Ne.symm h)
  · unfold effective_interval pyTruncQ
    split
    · rename_i h
      subst h
      norm_num
    · rename_i h
      rw [if_neg (not_lt.mpr hp)]
      rw [show ((0 : ℤ) < Int.floor p ↔ (1 : ℤ) ≤ Int.floor p) from by omega]
      rw [Int.le_floor]
      simp [h]

/-- Witness for the amended C8 theorem at the zero timeout override and
the fractional interval override one half. -/
theorem c8_amended_witness :
    0 < effective_timeout 0 120 ∧
    (0 < effective_interval (1 / 2) 10 ↔ ((1 / 2 : ℚ) = 0 ∨ 1 ≤ (1 / 2 : ℚ))) :=
  c8_amended 0 (1 / 2) (by norm_num) (by norm_num)

/-- Claim C2, counterexample: a transport failure (RequestException) on
the very first poll attempt, well before the 5 second deadline, is not
swallowed: wait_result surfaces the api-level NetworkException to the
caller after a single attempt, and that exception is not a
SolverExceptions, so even a caller catching those does not see a retry. -/
theorem c2_counterexample :
    wait_result transientFailPolls 0 5 2
      = Option.some (Except.error (PyExc.apiNetwork "connection refused"), 1) ∧
    caughtBy (PyExc.apiNetwork "connection refused") PyClass.solverExceptions
      = false := by
  refine ⟨?_, rfl⟩
  have h := wait_result_surface transientFailPolls 0 5 2 0
    (PyExc.apiNetwork "connection refused") (by norm_num) rfl
    (fun j hj => absurd hj (Nat.not_lt_zero j)) rfl (by norm_num)
  simpa using h

/-- Claim C4, counterexample: the 21 character base64-alphabet string of
the letter A names no file and is no URL, yet get_method rejects it with
ValidationException instead of choosing the inline base64 encoding,
because base64.b64decode raises binascii.Error when the number of data
characters is 1 more than a multiple of 4. -/
theorem c4_counterexample :
    sA21.length = 21 ∧
    sA21.toList.all isB64Char = true ∧
    get_method (fun _ => false) (fun _ => FetchOutcome.exc "") sA21
      = Except.error
          (PyExc.validation
            "Invalid file input: not a valid URL, existing file path, or base64 string.") ∧
    get_method (fun _ => false) (fun _ => FetchOutcome.exc "") sA21
      ≠ Except.ok [("method", PyVal.str "base64"), ("body", PyVal.str sA21)] := by
  refine ⟨by decide, by decide, by decide, by decide⟩

/-- Claim C4 as amended: for every string of at least 20 characters made
of base64-alphabet characters followed by at most two padding signs, whose
data-character count d and padding p are in the shapes base64.b64decode
accepts (d a multiple of 4, or d congruent 2 with both paddings, or d
congruent 3 with at least one), that names no existing file, get_method
chooses the inline base64 encoding and returns the string as the body
(such a string contains no colon, so it can never be a URL with scheme). -/
theorem c4_amended (fe : String → Bool) (fetch : String → FetchOutcome)
    (s : String) (ds : List Char) (p : Nat)
    (hs : s.toList = ds ++ List.replicate p '=')
    (hds : ∀ c ∈ ds, isB64Char c = true)
    (hp : p ≤ 2)
    (hlen : 20 ≤ s.length)
    (hacc : ds.length % 4 = 0 ∨ (ds.length % 4 = 2 ∧ p = 2)
      ∨ (ds.length % 4 = 3 ∧ 1 ≤ p))
    (hfe : fe s = false) :
    get_method fe fetch s
      = Except.ok [("method", PyVal.str "base64"), ("body", PyVal.str s)] := by
  have hcolon : ∀ c ∈ s.toList, c ≠ ':' := by
    intro c hc
    rw [hs] at hc
    rcases List.mem_append.mp hc with hc | hc
    · exact isB64Char_ne_colon (hds c hc)
    · rw [List.eq_of_mem_replicate hc]
      decide
  have hurl : urlIsHttpWithNetloc s = false := url_false_of_no_colon hcolon
  have hb64 : is_base64_like s false = true := is_base64_like_true hs hds hp hlen hacc
  have hlens : s.length = s.toList.length := rfl
  have hneL : ¬ s.data = [] := by
    intro he
    have h0 : s.toList.length = 0 := by
      rw [show s.toList = s.data from rfl, he]
      rfl
    omega
  simp [get_method, hneL, hurl, hfe, hb64]

/-- Witness for the amended C4 theorem at the 20-character string of the
letter A (data count 20, a multiple of 4, no padding). -/
theorem c4_amended_witness :
    get_method (fun _ => false) (fun _ => FetchOutcome.exc "")
        "AAAAAAAAAAAAAAAAAAAA"
      = Except.ok [("method", PyVal.str "base64"),
                   ("body", PyVal.str "AAAAAAAAAAAAAAAAAAAA")] :=
  c4_amended (fun _ => false) (fun _ => FetchOutcome.exc "")
    "AAAAAAAAAAAAAAAAAAAA" ("AAAAAAAAAAAAAAAAAAAA".toList) 0
    (by decide) (by decide) (by decide) (by decide)
    (Or.inl (by decide)) rfl

/-- Claim C5, counterexample: on a mapping whose only key, proxy, is
absent from the renaming table, translating once yields the two scalar
wire fields, but translating twice drops the proxy field (the second pass
pops the now-scalar proxy value and, as it is no dict, emits nothing), so
the translator is not idempotent there. -/
theorem c5_counterexample :
    (c5m.all fun kv => (alookup replaceTable kv.1).isNone) = true ∧
    alookup (rename_params c5m) "proxy" = Option.some (PyVal.str "u:p@1.2.3.4:80") ∧
    alookup (rename_params (rename_params c5m)) "proxy" = Option.none ∧
    rename_params (rename_params c5m) ≠ rename_params c5m := by
  refine ⟨by decide, by decide, by decide, by decide⟩

/-- Claim C5 as amended: on every well-formed mapping whose keys are all
absent from the renaming table (the replace dict together with the
special-cased user_agent and sitekey keys) and whose proxy entry, if
present, is not a proxy descriptor (a nonempty dict), applying the
Parameter Translator twice yields the same mapping as applying it once. -/
theorem c5_amended (m : Dict)
    (hnd : keysNodup m)
    (hkeys : ∀ kv ∈ m, renameKey kv.1 = Option.none)
    (hproxy : ∀ d, alookup m "proxy" = Option.some (PyVal.dict d) → d = []) :
    rename_params (rename_params m) = rename_params m := by
  have h1 : rename_params m = dpop m "proxy" :=
    rename_params_passthrough m hkeys hnd hproxy
  have hnd2 : keysNodup (dpop m "proxy") := keysNodup_dpop m "proxy" hnd
  have hkeys2 : ∀ kv ∈ dpop m "proxy", renameKey kv.1 = Option.none :=
    fun kv hkv => hkeys kv (mem_of_mem_dpop hkv)
  have hproxy2 : ∀ d, alookup (dpop m "proxy") "proxy"
      = Option.some (PyVal.dict d) → d = [] := by
    intro d hd
    rw [alookup_dpop_self] at hd
    cases hd
  rw [h1, rename_params_passthrough _ hkeys2 hnd2 hproxy2, dpop_idem]

/-- Witness for the amended C5 theorem on a mapping of passthrough keys
with a non-dict proxy value. -/
theorem c5_amended_witness :
    rename_params (rename_params c5w) = rename_params c5w :=
  c5_amended c5w (by unfold keysNodup dkeys; decide) (by decide)
    (fun d hd => by simp [c5w, alookup] at hd)

/-- Claim C6, counterexample: on a mapping containing the proxy descriptor
of the claim, the translated mapping need not carry the descriptor type in
proxytype (a passthrough proxytype entry overwrites it in the final
update), and the nested descriptor can survive as the value of another
key, so neither half of the claim holds for every mapping containing the
descriptor. -/
theorem c6_counterexample :
    alookup c6m "proxy"
      = Option.some (PyVal.dict [("type", "HTTPS"), ("uri", "u:p@1.2.3.4:80")]) ∧
    alookup (rename_params c6m) "proxytype" = Option.some (PyVal.str "SOCKS") ∧
    alookup (rename_params c6m) "proxytype" ≠ Option.some (PyVal.str "HTTPS") ∧
    alookup (rename_params c6m) "other"
      = Option.some (PyVal.dict [("type", "HTTPS"), ("uri", "u:p@1.2.3.4:80")]) := by
  refine ⟨by decide, by decide, by decide, by decide⟩

/-- Claim C6 as amended: for every well-formed parameter mapping holding
the proxy descriptor at the proxy key, containing no proxytype key, and
holding the descriptor at no other key, the translated wire mapping
carries the two independent scalar fields proxy (the uri) and proxytype
(the type) and the nested descriptor appears nowhere as a value; and on
every well-formed mapping whose proxy value is absent or not a dict, the
translator produces neither field (the proxy key is removed, and the
proxytype field is exactly whatever the input passed through). -/
theorem c6_amended (m : Dict) (desc : List (String × String)) (u ty : String)
    (hnd : keysNodup m)
    (hm : alookup m "proxy" = Option.some (PyVal.dict desc))
    (hu : alookup desc "uri" = Option.some u)
    (hty : alookup desc "type" = Option.some ty)
    (hpt : alookup m "proxytype" = Option.none)
    (honly : ∀ kv ∈ m, kv.1 ≠ "proxy" → kv.2 ≠ PyVal.dict desc) :
    alookup (rename_params m) "proxy" = Option.some (PyVal.str u) ∧
    alookup (rename_params m) "proxytype" = Option.some (PyVal.str ty) ∧
    (∀ kv ∈ rename_params m, kv.2 ≠ PyVal.dict desc) ∧
    (∀ (m2 : Dict), keysNodup m2 →
      (∀ d2, alookup m2 "proxy" ≠ Option.some (PyVal.dict d2)) →
      alookup (rename_params m2) "proxy" = Option.none ∧
      alookup (rename_params m2) "proxytype" = alookup m2 "proxytype") := by
  have hloop2 : (renameLoop m).2 = m.filter (fun kv => (renameKey kv.1).isNone) := by
    unfold renameLoop
    rw [renameLoop_fold_snd m ([], [])]
    simp
  have hfl : ∀ k2, (renameKey k2).isNone = true →
      alookup ((renameLoop m).2) k2 = alookup m k2 := by
    intro k2 hk2
    rw [hloop2]
    exact alookup_filter_key (fun k3 => (renameKey k3).isNone) m k2 hk2
  have hrem_proxy : alookup (renameLoop m).2 "proxy"
      = Option.some (PyVal.dict desc) :=
    (hfl "proxy" (by decide)).trans hm
  have hnd_rem : keysNodup (renameLoop m).2 := by
    rw [hloop2]
    exact keysNodup_filter m _ hnd
  have hnd_rem2 : keysNodup (dpop (renameLoop m).2 "proxy") :=
    keysNodup_dpop _ _ hnd_rem
  have hdesc : desc.isEmpty = false := by
    cases desc with
    | nil => cases hu
    | cons a b => rfl
  have heq : rename_params m
      = dupdate
          (dset (dset (renameLoop m).1 "proxy" (PyVal.str u)) "proxytype"
            (PyVal.str ty))
          (dpop (renameLoop m).2 "proxy") := by
    simp only [rename_params, hrem_proxy, Option.getD_some, hu, hty,
      Option.map_some', hdesc, Bool.not_false, if_true]
  have hdpop_pt : alookup (dpop (renameLoop m).2 "proxy") "proxytype"
      = Option.none := by
    have h2 := alookup_filter_key (fun k3 => decide (k3 ≠ "proxy"))
      ((renameLoop m).2) "proxytype" (by decide)
    exact h2.trans ((hfl "proxytype" (by decide)).trans hpt)
  refine ⟨?_, ?_, ?_, ?_⟩
  · rw [heq, alookup_dupdate _ hnd_rem2, alookup_dpop_self]
    rw [alookup_dset_ne _ _ _ _ (by decide), alookup_dset_eq]
  · rw [heq, alookup_dupdate _ hnd_rem2, hdpop_pt, alookup_dset_eq]
  · intro kv hkv
    rw [heq] at hkv
    rcases mem_dupdate hkv with h | h
    · rcases mem_dset h with h | h
      · rcases mem_dset h with h | h
        · have hprov := renameLoop_fold_fst_mem m ([], []) kv
            (by unfold renameLoop at h; exact h)
          rcases hprov with h2 | ⟨kv2, hkv2, w, hw, hpr⟩
          · simp at h2
          · intro hcontra
            have hk2 : kv2.1 ≠ "proxy" := by
              intro he
              rw [he] at hw
              rw [show renameKey "proxy" = Option.none from by decide] at hw
              cases hw
            apply honly kv2 hkv2 hk2
            exact (congrArg Prod.snd hpr).symm.trans hcontra
        · rw [h]
          simp
      · rw [h]
        simp
    · have hne : kv.1 ≠ "proxy" := by
        have h2 := List.of_mem_filter h
        simpa using h2
      have hmem_m : kv ∈ m := by
        have h2 : kv ∈ (renameLoop m).2 := mem_of_mem_dpop h
        rw [hloop2] at h2
        exact List.mem_of_mem_filter h2
      exact honly kv hmem_m hne
  · intro m2 hnd2 hnodict
    have hloop2b : (renameLoop m2).2
        = m2.filter (fun kv => (renameKey kv.1).isNone) := by
      unfold renameLoop
      rw [renameLoop_fold_snd m2 ([], [])]
      simp
    have hflb : ∀ k2, (renameKey k2).isNone = true →
        alookup ((renameLoop m2).2) k2 = alookup m2 k2 := by
      intro k2 hk2
      rw [hloop2b]
      exact alookup_filter_key (fun k3 => (renameKey k3).isNone) m2 k2 hk2
    have hnd_remb : keysNodup (renameLoop m2).2 := by
      rw [hloop2b]
      exact keysNodup_filter m2 _ hnd2
    have hnd_rem2b : keysNodup (dpop (renameLoop m2).2 "proxy") :=
      keysNodup_dpop _ _ hnd_remb
    have hnp_proxy : alookup (renameLoop m2).1 "proxy" = Option.none :=
      renameLoop_fst_lookup_none m2 "proxy"
        (fun k3 w hw => (renameKey_target k3 w hw).1)
    have hnp_pt : alookup (renameLoop m2).1 "proxytype" = Option.none :=
      renameLoop_fst_lookup_none m2 "proxytype"
        (fun k3 w hw => (renameKey_target k3 w hw).2)
    have hdpop_ptb : alookup (dpop (renameLoop m2).2 "proxy") "proxytype"
        = alookup m2 "proxytype" := by
      have h2 := alookup_filter_key (fun k3 => decide (k3 ≠ "proxy"))
        ((renameLoop m2).2) "proxytype" (by decide)
      exact h2.trans (hflb "proxytype" (by decide))
    have heq2 : rename_params m2
        = dupdate (renameLoop m2).1 (dpop (renameLoop m2).2 "proxy") := by
      simp only [rename_params]
      rcases hpv : alookup (renameLoop m2).2 "proxy" with _ | v
      · rfl
      · rcases v with t | n | d | _
        · rfl
        · rfl
        · exact absurd ((hflb "proxy" (by decide)).symm.trans hpv) (hnodict d)
        · rfl
    constructor
    · rw [heq2, alookup_dupdate _ hnd_rem2b, alookup_dpop_self, hnp_proxy]
    · rw [heq2, alookup_dupdate _ hnd_rem2b, hdpop_ptb]
      cases hpt2 : alookup m2 "proxytype" with
      | none => rw [hnp_pt]
      | some v => rfl

/-- Witness for the amended C6 theorem: a mapping with a renamed key, the
descriptor at proxy, and a passthrough key. -/
theorem c6_amended_witness :
    alookup (rename_params c6w) "proxy"
      = Option.some (PyVal.str "u:p@1.2.3.4:80") ∧
    alookup (rename_params c6w) "proxytype"
      = Option.some (PyVal.str "HTTPS") := by
  have h := c6_amended c6w [("type", "HTTPS"), ("uri", "u:p@1.2.3.4:80")]
    "u:p@1.2.3.4:80" "HTTPS"
    (by unfold keysNodup dkeys; decide) (by decide) (by decide) (by decide)
    (by decide) (by decide)
  exact ⟨h.1, h.2.1⟩

end TC
